import Mathlib

/-!
# uBITX v6 user interface (`ubitx_ui.cpp`): VFO state, band scan, split / band-select,
tuning, command dispatch

A shallow embedding of the state-changing core of `ubitx_ui.cpp`.  Drawing calls
(`btnDraw`, `displayVFO`, `displayText`, `drawCommandbar`, ...) only read the
state and are left out; every assignment to a global is kept, in source order.

C `int` / `char` arithmetic on the encoder accumulator and the loop indices is
modelled on `Int`: the accumulator is reset to 0 (or forced to 50) and moves by
encoder deltas, and the indices stay below `MAX_FREQS`, so no value comes near
a limit of its type.  `char` is signed, as on the AVR target of the sketch
(`char li = -1` is tested with `li < 0`).  `unsigned long` frequencies are
natural numbers, reduced modulo `2^32` where the code computes them
(`fastTune`, `enterFreq`).
-/

namespace Ubitx

/-! ## Constants and data declared outside `ubitx_ui.cpp` -/

/-- Constants that `ubitx_ui.cpp` takes from `ubitx.h`: the two VFO identifiers
and the tuning limits.  Their values are not fixed here. -/
structure Config where
  VFO_A : Int
  VFO_B : Int
  LOWEST_FREQ : Nat
  HIGHEST_FREQ : Nat
deriving DecidableEq, Repr

/-- The globals of the radio that `ubitx_ui.cpp` reads and writes (declared in
`ubitx.h`), plus the file-local `enccnt`.  Flags hold C truth values. -/
structure VfoState where
  frequency : Nat
  isUSB : Bool
  cwMode : Bool
  vfoA : Nat
  vfoB : Nat
  isUsbVfoA : Bool
  isUsbVfoB : Bool
  vfoAcwMode : Bool
  vfoBcwMode : Bool
  vfoActive : Int
  splitOn : Bool
  bandSelectOn : Bool
  oneKhzOn : Bool
  inTx : Bool
  enccnt : Int
deriving DecidableEq, Repr

/-! ## The band table (lines 84-191) -/

/-- Bit `bLSB` of `Freq.bitValues` (line 85). -/
def bLSB : Nat := 0x01

/-- Bit `bUSB` of `Freq.bitValues` (line 86). -/
def bUSB : Nat := 0x02

/-- Bit `bCW` of `Freq.bitValues` (line 87). -/
def bCW : Nat := 0x04

/-- Band entry, `struct Freq` (lines 90-94). -/
structure Freq where
  text : String
  Hz : Nat
  bitValues : Nat
deriving DecidableEq, Repr

/-- Declared size of the band table (line 104). -/
def MAX_FREQS : Nat := 22

/-- The band table `freq_set` (lines 105-191), entries that are not commented out. -/
def freq_set : List Freq :=
  [ ⟨"80 CW", 3560000, bLSB ||| bCW⟩,
    ⟨"80 SSB1", 3690000, bLSB⟩,
    ⟨"80 SSB2", 3985000, bLSB⟩,
    ⟨"60 5U", 5403500, bUSB⟩,
    ⟨"40 CW", 7040000, bLSB ||| bCW⟩,
    ⟨"40 SSB", 7285000, bLSB⟩,
    ⟨"30 CW1", 10106000, bUSB ||| bCW⟩,
    ⟨"30 CW2", 10116000, bUSB ||| bCW⟩,
    ⟨"20 CW", 14060000, bUSB ||| bCW⟩,
    ⟨"20 SSB", 14285000, bUSB⟩,
    ⟨"17 CW1", 18080000, bUSB ||| bCW⟩,
    ⟨"17 CW2", 18096000, bUSB ||| bCW⟩,
    ⟨"17 SSB", 18130000, bUSB⟩,
    ⟨"15 CW", 21060000, bUSB ||| bCW⟩,
    ⟨"15 SSB1", 21285000, bUSB⟩,
    ⟨"15 SSB2", 21385000, bUSB⟩,
    ⟨"12 CW1", 24906000, bUSB ||| bCW⟩,
    ⟨"12 CW2", 24910000, bUSB ||| bCW⟩,
    ⟨"12 SSB", 24950000, bUSB⟩,
    ⟨"10 CW", 28060000, bUSB ||| bCW⟩,
    ⟨"10 SSB1", 28365000, bUSB⟩,
    ⟨"10 SSB2", 28385000, bUSB⟩ ]

/-- Entry read by `memcpy_P(&fr, freq_set + i, sizeof(struct Freq))`.  Every
index the code reads is below `MAX_FREQS`; the filler entry is never reached. -/
def freqAt (i : Nat) : Freq := freq_set.getD i ⟨"", 0, 0⟩

/-! ## Band scan and band application: `setBandFreq` (lines 783-850) -/

/-- The scan loop of `setBandFreq` (lines 799-813) over the remaining entries of
the table: `i` is the loop index, `li` the index tracked so far.  Returns `li`
as it stands when the loop ends, by exhaustion or by `break`. -/
def scanLoop (f : Nat) (dir : Int) : List Freq → Int → Int → Int
  | [], _, li => li
  | fr :: rest, i, li =>
    -- if going lower in frequency
    let li1 := if dir < 0 ∧ fr.Hz < f then i else li
    if fr.Hz > f then
      -- if going higher in frequency; then the loop is done
      if dir > 0 then i else li1
    else scanLoop f dir rest (i + 1) li1

/-- Index `li` of the entry that a fired `setBandFreq(f, dir)` applies
(lines 795-816): the scan result, replaced by an end of the table when the scan
found nothing. -/
def bandIndex (f : Nat) (dir : Int) : Int :=
  let li := scanLoop f dir freq_set 0 (-1)
  if li < 0 then (if dir < 0 then 0 else (MAX_FREQS : Int) - 1) else li

/-- C logical negation `!x` of an integer value. -/
def cNot (x : Nat) : Nat := if x = 0 then 1 else 0

/-- The sideband condition of line 831, with C precedence (`!` binds tighter
than `&`, `&` tighter than `&&` and `||`):
`(bitValues & bUSB) || (((!bitValues) & bUSB) && ((!bitValues) & bLSB))`. -/
def sidebandIsUSB (bitValues : Nat) : Bool :=
  (bitValues &&& bUSB != 0) || ((cNot bitValues &&& bUSB != 0) && (cNot bitValues &&& bLSB != 0))

/-- Modelled from the spec: `setFrequency` is declared in `ubitx.h` and defined
outside `ubitx_ui.cpp`.  Per the specification ("clamps `f` to
`[LOWEST_FREQ, HIGHEST_FREQ]`, writes `workingFrequencyHz`") it stores the
clamped value in `frequency`; programming the oscillators is not part of the
state. -/
def setFrequency (cfg : Config) (f : Nat) (s : VfoState) : VfoState :=
  { s with frequency :=
      if f < cfg.LOWEST_FREQ then cfg.LOWEST_FREQ
      else if cfg.HIGHEST_FREQ < f then cfg.HIGHEST_FREQ
      else f }

/-- Lines 820-849 of `setBandFreq`: apply the band entry `fr` to the radio. -/
def applyBand (cfg : Config) (fr : Freq) (s : VfoState) : VfoState :=
  -- get the cwMode to set
  let s := { s with cwMode := fr.bitValues &&& bCW != 0 }
  -- get the frequency to set
  let s := { s with frequency := fr.Hz }
  -- get the sideband data to set
  let s := { s with isUSB := sidebandIsUSB fr.bitValues }
  -- set and display the frequency
  setFrequency cfg s.frequency s

/-- The hysteresis test of line 791 on the updated accumulator: `abs(enccnt) < 4`
fails, so the call goes on to change band. -/
def fires (enccnt dir : Int) : Bool := !decide (|enccnt + dir| < 4)

/-- Function `setBandFreq(f, dir)` (lines 788-850). -/
def setBandFreq (cfg : Config) (f : Nat) (dir : Int) (s : VfoState) : VfoState :=
  let s := { s with enccnt := s.enccnt + dir }
  if |s.enccnt| < 4 then s
  else
    let s := { s with enccnt := 0 }
    let li := bandIndex f dir
    applyBand cfg (freqAt li.toNat) s

/-! ## Split and band-select (lines 640-661, 852-880) -/

mutual
/-- Function `splitToggle` (lines 640-661). -/
def splitToggle (cfg : Config) (s : VfoState) : VfoState :=
  let s1 := if h : s.bandSelectOn = true then toggleBandSelect cfg s else s
  { s1 with splitOn := !s1.splitOn }
termination_by (if s.bandSelectOn = true then 2 else 0)
decreasing_by
  simp [h]
/-- Function `toggleBandSelect` (lines 852-880). -/
def toggleBandSelect (cfg : Config) (s : VfoState) : VfoState :=
  -- force band select after toggle
  let s1 := { s with enccnt := 50 }
  -- Disable Split
  let s2 := if h : (!s1.bandSelectOn && s1.splitOn) = true then splitToggle cfg s1 else s1
  let s3 := { s2 with bandSelectOn := !s2.bandSelectOn }
  if s3.bandSelectOn then setBandFreq cfg s3.frequency 1 s3 else s3
termination_by (if (!s.bandSelectOn && s.splitOn) = true then 1 else 0)
decreasing_by
  simp at h
  simp [h]
end

/-- Function `Act2Inact` (lines 663-701): copy the active VFO to the inactive
one and set split mode. -/
def Act2Inact (cfg : Config) (s : VfoState) : VfoState :=
  let s := if s.bandSelectOn then toggleBandSelect cfg s else s
  let s := if !s.splitOn then splitToggle cfg s else s
  if s.vfoActive = cfg.VFO_A then
    let s := { s with vfoA := s.frequency }
    let s := { s with vfoB := s.vfoA }
    let s := { s with isUsbVfoA := s.isUSB }
    let s := { s with isUsbVfoB := s.isUsbVfoA }
    let s := { s with vfoAcwMode := s.cwMode }
    { s with vfoBcwMode := s.vfoAcwMode }
  else if s.vfoActive = cfg.VFO_B then
    let s := { s with vfoB := s.frequency }
    let s := { s with vfoA := s.vfoB }
    let s := { s with isUsbVfoB := s.isUSB }
    let s := { s with isUsbVfoA := s.isUsbVfoB }
    let s := { s with vfoBcwMode := s.cwMode }
    { s with vfoAcwMode := s.vfoBcwMode }
  else s

/-- The one statement of `fastTune` that runs before its event loop and writes
the state (line 438): band select is turned off in fast-tune mode. -/
def fastTuneEntry (cfg : Config) (s : VfoState) : VfoState :=
  if s.bandSelectOn then toggleBandSelect cfg s else s

/-- The transmit VFO `TxVfo` that `drawTx` computes (line 566). -/
def TxVfo (cfg : Config) (s : VfoState) : Int :=
  if !s.inTx && s.splitOn then (if s.vfoActive = cfg.VFO_A then cfg.VFO_B else cfg.VFO_A)
  else s.vfoActive

/-! ## Fast tune and frequency entry (lines 430-545) -/

/-- One pass of the event loop of `fastTune` with encoder reading `encoder`
(lines 457-468).  The working frequency is an `unsigned long`: adding the `long`
50000 or -50000 is addition modulo `2^32`, with -50000 converted to
`2^32 - 50000`. -/
def fastTuneStep (cfg : Config) (encoder : Int) (s : VfoState) : VfoState :=
  if encoder ≠ 0 then
    let s := { s with frequency :=
      (s.frequency + (if encoder > 0 then 50000 else 2 ^ 32 - 50000)) % 2 ^ 32 }
    -- observe defined frequency bounds
    let s := if s.frequency > cfg.HIGHEST_FREQ then { s with frequency := cfg.HIGHEST_FREQ } else s
    let s := if s.frequency < cfg.LOWEST_FREQ then { s with frequency := cfg.LOWEST_FREQ } else s
    setFrequency cfg s.frequency s
  else s

/-- Function `fastTune` (lines 430-470): the entry statement, then one pass of
the loop for each encoder reading taken before the button ends the loop. -/
def fastTune (cfg : Config) (readings : List Int) (s : VfoState) : VfoState :=
  readings.foldl (fun st e => fastTuneStep cfg e st) (fastTuneEntry cfg s)

/-- The `long` that `atol(c)` returns (line 506) when the digits typed on the
keypad denote `k`.  A `long` has 32 bits on the target and the conversion does
not check for overflow: the value is `k` reduced modulo `2^32` into the range
`[-2^31, 2^31)`, which is `k` itself for `k < 2^31`. -/
def atol (k : Nat) : Int :=
  if k % 2 ^ 32 < 2 ^ 31 then ((k % 2 ^ 32 : Nat) : Int)
  else ((k % 2 ^ 32 : Nat) : Int) - 2 ^ 32

/-- The "OK" branch of `enterFreq` (lines 505-519) when the typed digits denote
`k`; `f` is the `long` of line 506.  The product `f * 1000l` is stored in the
`unsigned long` working frequency, that is modulo `2^32`. -/
def enterFreqOK (cfg : Config) (k : Nat) (s : VfoState) : VfoState :=
  let f : Int := atol k
  if ((cfg.HIGHEST_FREQ / 1000 : Nat) : Int) ≥ f ∧ f > ((cfg.LOWEST_FREQ / 1000 : Nat) : Int) then
    let s := { s with frequency := (f * 1000).toNat % 2 ^ 32 }
    let s := setFrequency cfg s.frequency s
    if s.vfoActive = cfg.VFO_A then { s with vfoA := s.frequency }
    else { s with vfoB := s.frequency }
  else s

/-- Function `enterFreq` (lines 472-545) as seen from the state: the keypad loop
ends with "OK" on the typed digits (`some k`) or with "Can" (`none`). -/
def enterFreq (cfg : Config) (keyed : Option Nat) (s : VfoState) : VfoState :=
  match keyed with
  | some k => enterFreqOK cfg k s
  | none => s

/-! ## Mode commands (lines 634-637, 703-757, 884-894) -/

/-- Function `oneKhzToggle` (lines 634-637). -/
def oneKhzToggle (s : VfoState) : VfoState :=
  { s with oneKhzOn := !s.oneKhzOn }

/-- Function `cwToggle` (lines 732-736). -/
def cwToggle (cfg : Config) (s : VfoState) : VfoState :=
  let s := { s with cwMode := !s.cwMode }
  setFrequency cfg s.frequency s

/-- Function `sidebandToggle` (lines 738-757); `text` is the label of the button
passed in. -/
def sidebandToggle (cfg : Config) (text : String) (s : VfoState) : VfoState :=
  let s := if text = "LSB" then { s with isUSB := false } else { s with isUSB := true }
  let s := if s.vfoActive = cfg.VFO_A then { s with isUsbVfoA := s.isUSB }
    else { s with isUsbVfoB := s.isUSB }
  setFrequency cfg s.frequency s

/-- Function `selectBand` (lines 884-894): waits for the button and the touch to
be released, then toggles band select. -/
def selectBand (cfg : Config) (s : VfoState) : VfoState :=
  toggleBandSelect cfg s

/-! ## Command dispatch and menu navigation (lines 33-58, 961-1113) -/

/-- Size of the button table (line 33). -/
def MAX_BUTTONS : Nat := 14

/-- Labels (field `text`) of the button table `btn_set` (lines 34-58), in table
order; the other fields are layout data for drawing. -/
def btn_set : List String :=
  ["VFOA", "VFOB", "USB", "LSB", "CW", "A>I", "SPL", "FRQ", "BND", "1Kz", "SAV", "RCL",
   "WPM", "TON"]

/-- What the handlers reached from `doCommand` take from outside
`ubitx_ui.cpp`: the effect on the state of `switchVFO`, `saveVFO` and
`recallVFO` (declared in `ubitx.h`), the encoder readings taken during a fast
tune, and the outcome of the frequency keypad. -/
structure Outside where
  switchVFO : Int → VfoState → VfoState
  saveVFO : VfoState → VfoState
  recallVFO : VfoState → VfoState
  readings : List Int
  keyed : Option Nat

/-- Function `saveActiveVFO` (lines 704-708). -/
def saveActiveVFO (out : Outside) (s : VfoState) : VfoState :=
  out.saveVFO s

/-- Function `recallActiveVFO` (lines 711-729). -/
def recallActiveVFO (cfg : Config) (out : Outside) (s : VfoState) : VfoState :=
  let s := out.recallVFO s
  setFrequency cfg s.frequency s

/-- The branches of the `if` / `else if` chain of `doCommand`, in source order. -/
inductive Branch where
  | LSB | USB | CW | SPL | VFOA | VFOB | SAV | RCL | oneKhz | A2I | BND | FRQ | WPM | TON
deriving DecidableEq, Repr

/-- The command names that the chain of `doCommand` compares the label with
(`strcmp`), in source order (lines 968-1002). -/
def registered : List String :=
  ["LSB", "USB", "CW", "SPL", "VFOA", "VFOB", "SAV", "RCL", "1Kz", "A>I", "BND", "FRQ",
   "WPM", "TON"]

/-- The branch of `doCommand` taken for the label `text`: the first comparison
of the chain that succeeds, `none` when all fail (the chain has no final
`else`). -/
def doCommandBranch (text : String) : Option Branch :=
  if text = "LSB" then some .LSB
  else if text = "USB" then some .USB
  else if text = "CW" then some .CW
  else if text = "SPL" then some .SPL
  else if text = "VFOA" then some .VFOA
  else if text = "VFOB" then some .VFOB
  else if text = "SAV" then some .SAV
  else if text = "RCL" then some .RCL
  else if text = "1Kz" then some .oneKhz
  else if text = "A>I" then some .A2I
  else if text = "BND" then some .BND
  else if text = "FRQ" then some .FRQ
  else if text = "WPM" then some .WPM
  else if text = "TON" then some .TON
  else none

/-- Function `doCommand` (lines 961-1004) for a button with label `text`: the
handler called in the branch taken.  `setCwSpeed` and `setCwTone` write only
`cwSpeed`, `sideTone` and the EEPROM, which are not part of `VfoState`. -/
def doCommand (cfg : Config) (out : Outside) (text : String) (s : VfoState) : VfoState :=
  match doCommandBranch text with
  | some .LSB => sidebandToggle cfg text s
  | some .USB => sidebandToggle cfg text s
  | some .CW => cwToggle cfg s
  | some .SPL => splitToggle cfg s
  | some .VFOA =>
    if s.vfoActive = cfg.VFO_A then fastTune cfg out.readings s
    else out.switchVFO cfg.VFO_A s
  | some .VFOB =>
    if s.vfoActive = cfg.VFO_B then fastTune cfg out.readings s
    else out.switchVFO cfg.VFO_B s
  | some .SAV => saveActiveVFO out s
  | some .RCL => recallActiveVFO cfg out s
  | some .oneKhz => oneKhzToggle s
  | some .A2I => Act2Inact cfg s
  | some .BND => selectBand cfg s
  | some .FRQ => enterFreq cfg out.keyed s
  | some .WPM => s
  | some .TON => s
  | none => s

/-- One pass of the menu loop of `doCommands` that reads the encoder value `i`
(lines 1087-1099): the new value of `select`. -/
def doCommandsTurn (i : Int) (select : Int) : Int :=
  if i = 0 then select
  else
    let select :=
      if i > 0 then (if select + 1 < (MAX_BUTTONS : Int) then select + 1 else select)
      else select
    if i < 0 ∧ select - 1 ≥ 0 then select + -1 else select

/-- The value of `select` in `doCommands` after the encoder readings `deltas`,
from its initial value (line 1051). -/
def doCommandsSelect (cfg : Config) (s : VfoState) (deltas : List Int) : Int :=
  deltas.foldl (fun sel i => doCommandsTurn i sel) (if s.vfoActive = cfg.VFO_A then 0 else 1)

/-! ## Vocabulary of the statements -/

/-- Every band of the table lies inside the tuning limits, so that
`setFrequency` stores a band frequency as it is. -/
def bandsInRange (cfg : Config) : Prop :=
  ∀ e ∈ freq_set, cfg.LOWEST_FREQ ≤ e.Hz ∧ e.Hz ≤ cfg.HIGHEST_FREQ

instance (cfg : Config) : Decidable (bandsInRange cfg) := by
  unfold bandsInRange; infer_instance

/-- The state in which band entry `i` has been applied to `s`: accumulator
reset, working frequency and mode flags those of the entry, all else as in `s`. -/
def bandApplied (s : VfoState) (i : Nat) : VfoState :=
  { s with
    enccnt := 0
    cwMode := (freqAt i).bitValues &&& bCW != 0
    frequency := (freqAt i).Hz
    isUSB := (freqAt i).bitValues &&& bUSB != 0 }

/-- The call `setBandFreq(f, dir)` in state `s` selects index `i` and leaves the
state in which entry `i` is applied. -/
def appliesEntry (cfg : Config) (s : VfoState) (f : Nat) (dir : Int) (i : Nat) : Prop :=
  bandIndex f dir = (i : Int) ∧ setBandFreq cfg f dir s = bandApplied s i

/-- A sequence of calls `setBandFreq(f, d)`, one per element `(f, d)`, in order. -/
def runBand (cfg : Config) (calls : List (Nat × Int)) (s : VfoState) : VfoState :=
  calls.foldl (fun st c => setBandFreq cfg c.1 c.2 st) s

/-- A configuration for concrete evaluations: VFO identifiers 0 and 1, tuning
limits 100 kHz and 30 MHz. -/
def sampleConfig : Config := ⟨0, 1, 100000, 30000000⟩

/-- A state for concrete evaluations: VFO A active on 7.1 MHz LSB, VFO B on
14.2 MHz USB, split and band select off, accumulator at zero. -/
def sampleState : VfoState :=
  { frequency := 7100000, isUSB := false, cwMode := false,
    vfoA := 7100000, vfoB := 14200000, isUsbVfoA := false, isUsbVfoB := true,
    vfoAcwMode := false, vfoBcwMode := false, vfoActive := 0,
    splitOn := false, bandSelectOn := false, oneKhzOn := false, inTx := false, enccnt := 0 }

/-- The working mode flags equal the flags stored for the active slot: those of
VFO A when `vfoActive` is `VFO_A`, those of VFO B otherwise. -/
def inSync (cfg : Config) (s : VfoState) : Prop :=
  if s.vfoActive = cfg.VFO_A then s.isUSB = s.isUsbVfoA ∧ s.cwMode = s.vfoAcwMode
  else s.isUSB = s.isUsbVfoB ∧ s.cwMode = s.vfoBcwMode

instance (cfg : Config) (s : VfoState) : Decidable (inSync cfg s) := by
  unfold inSync; infer_instance

/-- The value `x` clamped to `[LOWEST_FREQ, HIGHEST_FREQ]`. -/
def clampFreq (cfg : Config) (x : Nat) : Nat :=
  max cfg.LOWEST_FREQ (min x cfg.HIGHEST_FREQ)

/-- A configuration whose lower tuning limit lies below the fast-tune step:
limits 10 kHz and 30 MHz. -/
def lowLimitConfig : Config := ⟨0, 1, 10000, 30000000⟩

/-- Outside effects for concrete evaluations: `switchVFO` makes the given VFO
active, `saveVFO` and `recallVFO` leave the state alone, the encoder gives two
upward readings, the keypad ends with "OK" on 14200. -/
def sampleOutside : Outside :=
  { switchVFO := fun v s => { s with vfoActive := v }
    saveVFO := fun s => s
    recallVFO := fun s => s
    readings := [1, 1]
    keyed := some 14200 }

/-! ## Facts about the table and the scan loop -/
theorem freq_set_length : freq_set.length = 22 := by decide

theorem freq_set_getElem (i : Nat) (hi : i < 22) : freq_set[i]? = some (freqAt i) := by
  unfold freqAt
  have h : i < freq_set.length := by rw [freq_set_length]; exact hi
  simp [List.getD, List.getElem?_eq_getElem h]

theorem sidebandIsUSB_eq (b : Nat) : sidebandIsUSB b = (b &&& bUSB != 0) := by
  unfold sidebandIsUSB cNot
  split <;> simp [bUSB, bLSB]

theorem scanLoop_none_up (f : Nat) (dir : Int) (hd : ¬ dir < 0) (l : List Freq) :
    ∀ (i li : Int), (∀ e ∈ l, e.Hz ≤ f) → scanLoop f dir l i li = li := by
  induction l with
  | nil => intro i li _; rfl
  | cons fr rest ih =>
    intro i li h
    have h0 : fr.Hz ≤ f := h fr (by simp)
    have h1 : ¬ fr.Hz > f := by omega
    simp only [scanLoop, hd, false_and, if_false, h1]
    exact ih (i + 1) li (fun e he => h e (by simp [he]))

theorem scanLoop_none_down (f : Nat) (dir : Int) (hd : ¬ dir > 0) (l : List Freq) :
    ∀ (i li : Int), (∀ e ∈ l, f ≤ e.Hz) → scanLoop f dir l i li = li := by
  induction l with
  | nil => intro i li _; rfl
  | cons fr rest ih =>
    intro i li h
    have h0 : f ≤ fr.Hz := h fr (by simp)
    have h1 : ¬ fr.Hz < f := by omega
    simp only [scanLoop, h1, and_false, if_false, hd]
    split
    · rfl
    · exact ih (i + 1) li (fun e he => h e (by simp [he]))

theorem scanLoop_up (f : Nat) (dir : Int) (hd : 0 < dir) (l : List Freq) :
    ∀ (k : Nat) (i li : Int) (e : Freq), l[k]? = some e → f < e.Hz →
      (∀ j e', j < k → l[j]? = some e' → e'.Hz ≤ f) → scanLoop f dir l i li = i + k := by
  induction l with
  | nil => intro k i li e h; simp at h
  | cons fr rest ih =>
    intro k i li e hk hf hlow
    cases k with
    | zero =>
      simp at hk
      subst hk
      have h1 : fr.Hz > f := hf
      simp [scanLoop, h1, hd]
    | succ k =>
      have h0 : fr.Hz ≤ f := hlow 0 fr (by omega) (by simp)
      have h1 : ¬ fr.Hz > f := by omega
      have h2 : ¬ dir < 0 := by omega
      simp only [scanLoop, h2, false_and, if_false, h1]
      rw [ih k (i + 1) li e (by simpa using hk) hf
        (fun j e' hj he' => hlow (j + 1) e' (by omega) (by simpa using he'))]
      push_cast
      omega

theorem scanLoop_down (f : Nat) (dir : Int) (hd : dir < 0) (l : List Freq) :
    ∀ (k : Nat) (i li : Int) (e : Freq), l[k]? = some e → e.Hz < f →
      (∀ j e', j < k → l[j]? = some e' → e'.Hz ≤ f) →
      (∀ j e', k < j → l[j]? = some e' → f ≤ e'.Hz) → scanLoop f dir l i li = i + k := by
  induction l with
  | nil => intro k i li e h; simp at h
  | cons fr rest ih =>
    intro k i li e hk hf hlow hhigh
    cases k with
    | zero =>
      simp at hk
      subst hk
      have h1 : ¬ fr.Hz > f := by omega
      simp only [scanLoop, hd, hf, and_self, if_true, h1, if_false]
      rw [scanLoop_none_down f dir (by omega) rest]
      · simp
      · intro e he
        obtain ⟨j, hj⟩ := List.getElem?_of_mem he
        exact hhigh (j + 1) e (by omega) (by simpa using hj)
    | succ k =>
      have h0 : fr.Hz ≤ f := hlow 0 fr (by omega) (by simp)
      have h1 : ¬ fr.Hz > f := by omega
      simp only [scanLoop, h1, if_false]
      rw [ih k (i + 1) _ e (by simpa using hk) hf
        (fun j e' hj he' => hlow (j + 1) e' (by omega) (by simpa using he'))
        (fun j e' hj he' => hhigh (j + 1) e' (by omega) (by simpa using he'))]
      push_cast
      omega

theorem scanLoop_range (f : Nat) (dir : Int) (l : List Freq) :
    ∀ (i li : Int), scanLoop f dir l i li = li ∨
      (i ≤ scanLoop f dir l i li ∧ scanLoop f dir l i li < i + l.length) := by
  induction l with
  | nil => intro i li; left; rfl
  | cons fr rest ih =>
    intro i li
    simp only [scanLoop, List.length_cons]
    split
    · split
      · right; constructor <;> push_cast <;> omega
      · split
        · right; constructor <;> push_cast <;> omega
        · left; rfl
    · split
      · rcases ih (i + 1) i with h | h
        · right; rw [h]; constructor <;> push_cast <;> omega
        · right; constructor <;> push_cast <;> omega
      · rcases ih (i + 1) li with h | h
        · left; exact h
        · right; constructor <;> push_cast <;> omega

theorem freq_set_lt (i j : Nat) (hij : i < j) (hj : j < 22) : (freqAt i).Hz < (freqAt j).Hz := by
  have h : ∀ a : Fin 22, ∀ b : Fin 22, a < b → (freqAt a).Hz < (freqAt b).Hz := by decide
  exact h ⟨i, by omega⟩ ⟨j, hj⟩ hij

theorem freqAt_mem (i : Nat) (hi : i < 22) : freqAt i ∈ freq_set :=
  List.getElem?_mem (freq_set_getElem i hi)

theorem freq_set_getElem_inv (j : Nat) (e : Freq) (h : freq_set[j]? = some e) :
    j < 22 ∧ e = freqAt j := by
  have hj : j < 22 := by
    by_contra hc
    have : freq_set.length ≤ j := by rw [freq_set_length]; omega
    rw [List.getElem?_eq_none this] at h
    simp at h
  refine ⟨hj, ?_⟩
  rw [freq_set_getElem j hj] at h
  exact (Option.some.inj h).symm

theorem applyBand_inRange (cfg : Config) (fr : Freq) (s : VfoState)
    (h : cfg.LOWEST_FREQ ≤ fr.Hz ∧ fr.Hz ≤ cfg.HIGHEST_FREQ) :
    applyBand cfg fr s =
      { s with cwMode := fr.bitValues &&& bCW != 0, frequency := fr.Hz,
               isUSB := fr.bitValues &&& bUSB != 0 } := by
  have h1 : ¬ fr.Hz < cfg.LOWEST_FREQ := by omega
  have h2 : ¬ cfg.HIGHEST_FREQ < fr.Hz := by omega
  simp [applyBand, setFrequency, sidebandIsUSB_eq, h1, h2]

theorem setBandFreq_fired (cfg : Config) (s : VfoState) (f : Nat) (dir : Int)
    (hfire : fires s.enccnt dir = true) :
    setBandFreq cfg f dir s =
      applyBand cfg (freqAt (bandIndex f dir).toNat) { s with enccnt := 0 } := by
  have h : ¬ |s.enccnt + dir| < 4 := by simpa [fires] using hfire
  simp [setBandFreq, h]

theorem appliesEntry_of_index (cfg : Config) (s : VfoState) (f : Nat) (dir : Int) (i : Nat)
    (hfire : fires s.enccnt dir = true) (hb : bandsInRange cfg) (hi : i < 22)
    (h : bandIndex f dir = (i : Int)) : appliesEntry cfg s f dir i := by
  refine ⟨h, ?_⟩
  rw [setBandFreq_fired cfg s f dir hfire, h, Int.toNat_ofNat,
    applyBand_inRange cfg _ _ (hb _ (freqAt_mem i hi))]
  rfl

theorem bandIndex_up (f : Nat) (dir : Int) (hd : 0 < dir) (i : Nat) (hi : i < 22)
    (hf : f < (freqAt i).Hz) (hlow : ∀ j, j < i → (freqAt j).Hz ≤ f) :
    bandIndex f dir = (i : Int) := by
  have h := scanLoop_up f dir hd freq_set i 0 (-1) (freqAt i) (freq_set_getElem i hi) hf
    (fun j e' hj he' => by
      obtain ⟨_, rfl⟩ := freq_set_getElem_inv j e' he'
      exact hlow j hj)
  simp only [bandIndex, h]
  have : ¬ ((0 : Int) + (i : Int) < 0) := by omega
  simp [this]

theorem bandIndex_down (f : Nat) (dir : Int) (hd : dir < 0) (i : Nat) (hi : i < 22)
    (hf : (freqAt i).Hz < f) (hhigh : ∀ j, i < j → j < 22 → f ≤ (freqAt j).Hz) :
    bandIndex f dir = (i : Int) := by
  have h := scanLoop_down f dir hd freq_set i 0 (-1) (freqAt i) (freq_set_getElem i hi) hf
    (fun j e' hj he' => by
      obtain ⟨_, rfl⟩ := freq_set_getElem_inv j e' he'
      have := freq_set_lt j i hj hi
      omega)
    (fun j e' hj he' => by
      obtain ⟨hj2, rfl⟩ := freq_set_getElem_inv j e' he'
      exact hhigh j hj hj2)
  simp only [bandIndex, h]
  have : ¬ ((0 : Int) + (i : Int) < 0) := by omega
  simp [this]

theorem bandIndex_none_down (f : Nat) (dir : Int) (hd : dir < 0) (hf : f ≤ (freqAt 0).Hz) :
    bandIndex f dir = 0 := by
  have h := scanLoop_none_down f dir (by omega) freq_set 0 (-1) (fun e he => by
    obtain ⟨j, hj⟩ := List.getElem?_of_mem he
    obtain ⟨hj2, rfl⟩ := freq_set_getElem_inv j e hj
    rcases Nat.eq_zero_or_pos j with h0 | h0
    · subst h0; exact hf
    · have := freq_set_lt 0 j h0 hj2
      omega)
  simp [bandIndex, h, hd]

theorem bandIndex_none_up (f : Nat) (dir : Int) (hd : ¬ dir < 0) (hf : (freqAt 21).Hz ≤ f) :
    bandIndex f dir = 21 := by
  have h := scanLoop_none_up f dir hd freq_set 0 (-1) (fun e he => by
    obtain ⟨j, hj⟩ := List.getElem?_of_mem he
    obtain ⟨hj2, rfl⟩ := freq_set_getElem_inv j e hj
    rcases Nat.lt_or_ge j 21 with h0 | h0
    · have := freq_set_lt j 21 h0 (by omega)
      omega
    · have : j = 21 := by omega
      subst this; exact hf)
  simp [bandIndex, h, hd, MAX_FREQS]

theorem bandIndex_range (f : Nat) (dir : Int) :
    0 ≤ bandIndex f dir ∧ bandIndex f dir ≤ (MAX_FREQS : Int) - 1 := by
  have h := scanLoop_range f dir freq_set 0 (-1)
  rw [freq_set_length] at h
  unfold bandIndex MAX_FREQS
  simp only []
  split
  · split <;> constructor <;> omega
  · rcases h with h | h
    · omega
    · constructor <;> push_cast <;> omega

/-! ## Closed forms of the mutually recursive toggles -/

theorem splitToggle_eq (cfg : Config) (s : VfoState) :
    splitToggle cfg s =
      if s.bandSelectOn = true then
        { s with enccnt := 50, bandSelectOn := false, splitOn := !s.splitOn }
      else { s with splitOn := !s.splitOn } := by
  rw [splitToggle]
  by_cases hb : s.bandSelectOn = true
  · rw [toggleBandSelect]
    simp [hb]
  · simp [hb]

theorem toggleBandSelect_eq (cfg : Config) (s : VfoState) :
    toggleBandSelect cfg s =
      if s.bandSelectOn = true then { s with enccnt := 50, bandSelectOn := false }
      else applyBand cfg (freqAt (bandIndex s.frequency 1).toNat)
        { s with enccnt := 0, splitOn := false, bandSelectOn := true } := by
  rw [toggleBandSelect]
  by_cases hb : s.bandSelectOn = true
  · simp [hb]
  · have hb2 : s.bandSelectOn = false := by simpa using hb
    by_cases hs : s.splitOn = true
    · simp [hb2, hs, splitToggle_eq, setBandFreq]
    · have hs2 : s.splitOn = false := by simpa using hs
      simp [hb2, hs2, setBandFreq]


theorem Act2Inact_eq (cfg : Config) (s : VfoState) :
    Act2Inact cfg s =
      if s.vfoActive = cfg.VFO_A ∨ s.vfoActive = cfg.VFO_B then
        { s with enccnt := if s.bandSelectOn = true then 50 else s.enccnt,
                 bandSelectOn := false, splitOn := true,
                 vfoA := s.frequency, vfoB := s.frequency,
                 isUsbVfoA := s.isUSB, isUsbVfoB := s.isUSB,
                 vfoAcwMode := s.cwMode, vfoBcwMode := s.cwMode }
      else
        { s with enccnt := if s.bandSelectOn = true then 50 else s.enccnt,
                 bandSelectOn := false, splitOn := true } := by
  obtain ⟨frequency, isUSB, cwMode, vfoA, vfoB, isUsbVfoA, isUsbVfoB, vfoAcwMode, vfoBcwMode,
    vfoActive, splitOn, bandSelectOn, oneKhzOn, inTx, enccnt⟩ := s
  by_cases hA : vfoActive = cfg.VFO_A <;> by_cases hB : vfoActive = cfg.VFO_B <;>
    cases bandSelectOn <;> cases splitOn <;>
    simp [Act2Inact, splitToggle_eq, toggleBandSelect_eq, hA, hB]

/-! ## Calls below the hysteresis threshold -/

theorem setBandFreq_quiet (cfg : Config) (s : VfoState) (f : Nat) (dir : Int)
    (h : |s.enccnt + dir| < 4) :
    setBandFreq cfg f dir s = { s with enccnt := s.enccnt + dir } := by
  simp [setBandFreq, h]

theorem runBand_same_direction (cfg : Config) (d : Int) (hd : d = 1 ∨ d = -1) :
    ∀ (calls : List (Nat × Int)) (s : VfoState), (∀ c ∈ calls, c.2 = d) →
      |s.enccnt| + calls.length < 4 → s.enccnt * d ≥ 0 →
      runBand cfg calls s = { s with enccnt := s.enccnt + d * calls.length } := by
  intro calls
  induction calls with
  | nil => intro s _ _ _; simp [runBand]
  | cons c rest ih =>
    intro s hall hlen hsign
    have hc : c.2 = d := hall c (by simp)
    have hrest : ∀ x ∈ rest, x.2 = d := fun x hx => hall x (by simp [hx])
    simp only [List.length_cons] at hlen
    push_cast at hlen
    have hq : |s.enccnt + c.2| < 4 := by
      rw [hc]
      rcases hd with h | h <;> subst h <;> rw [abs_lt] <;>
        rcases abs_cases s.enccnt with ⟨h1, h2⟩ | ⟨h1, h2⟩ <;> constructor <;> omega
    have hstep : runBand cfg (c :: rest) s
        = runBand cfg rest (setBandFreq cfg c.1 c.2 s) := by
      simp [runBand]
    rw [hstep, setBandFreq_quiet cfg s c.1 c.2 hq, hc]
    rw [ih _ hrest]
    · simp only [List.length_cons]
      push_cast
      congr 1
      ring
    · show |s.enccnt + d| + (rest.length : Int) < 4
      rcases hd with h | h <;> subst h <;>
        rcases abs_cases s.enccnt with ⟨h1, h2⟩ | ⟨h1, h2⟩ <;>
        rcases abs_cases (s.enccnt + 1) with ⟨h3, h4⟩ | ⟨h3, h4⟩ <;>
        rcases abs_cases (s.enccnt + -1) with ⟨h5, h6⟩ | ⟨h5, h6⟩ <;> omega
    · show (s.enccnt + d) * d ≥ 0
      rcases hd with h | h <;> subst h <;> omega

/-! ## The band table is sorted -/

/-- C3: the configured band table `freq_set` has exactly `MAX_FREQS = 22`
entries and is strictly increasing by frequency: for every index `i` with
`0 <= i < 21`, entry `i` lies strictly below entry `i + 1`. -/
theorem freq_set_strictly_increasing :
    freq_set.length = MAX_FREQS ∧ MAX_FREQS = 22 ∧
    ∀ i, i < 21 → (freqAt i).Hz < (freqAt (i + 1)).Hz := by
  decide

/-- Witness for C3 at the first adjacent pair: 3,560,000 Hz < 3,690,000 Hz. -/
theorem freq_set_strictly_increasing_witness :
    (freqAt 0).Hz = 3560000 ∧ (freqAt 1).Hz = 3690000 ∧ (freqAt 0).Hz < (freqAt (0 + 1)).Hz :=
  ⟨by decide, by decide, freq_set_strictly_increasing.2.2 0 (by decide)⟩

/-! ## Band scan: neighbour selection and clamping -/

/-- C1: a fired `setBandFreq(f, dir)` applies the strict neighbour of `f` in the
requested direction.  With `dir > 0`, the applied entry is the first entry whose
frequency is strictly above `f`; with `dir < 0`, it is the last entry whose
frequency is strictly below `f`.  In particular, for `f` strictly between entries
`i` and `i + 1` the result is entry `i + 1` going up and entry `i` going down,
and for `f` equal to the frequency of entry `i` the result is entry `i + 1` going
up and entry `i - 1` going down, never entry `i` itself. -/
theorem setBandFreq_strict_neighbour (cfg : Config) (s : VfoState) (f : Nat) (dir : Int)
    (hfire : fires s.enccnt dir = true) (hb : bandsInRange cfg) (i : Nat) (hi : i < MAX_FREQS) :
    (0 < dir → f < (freqAt i).Hz → (∀ j, j < i → (freqAt j).Hz ≤ f) →
        appliesEntry cfg s f dir i) ∧
    (dir < 0 → (freqAt i).Hz < f → (∀ j, i < j → j < MAX_FREQS → f ≤ (freqAt j).Hz) →
        appliesEntry cfg s f dir i) ∧
    (i + 1 < MAX_FREQS → (freqAt i).Hz < f → f < (freqAt (i + 1)).Hz →
        (0 < dir → appliesEntry cfg s f dir (i + 1)) ∧
        (dir < 0 → appliesEntry cfg s f dir i)) ∧
    (f = (freqAt i).Hz →
        (0 < dir → i + 1 < MAX_FREQS →
          appliesEntry cfg s f dir (i + 1) ∧ bandIndex f dir ≠ (i : Int)) ∧
        (dir < 0 → 0 < i →
          appliesEntry cfg s f dir (i - 1) ∧ bandIndex f dir ≠ (i : Int))) := by
  have hi22 : i < 22 := hi
  have below : ∀ k, k < 22 → ∀ j, j < k → (freqAt j).Hz < (freqAt k).Hz :=
    fun k hk j hj => freq_set_lt j k hj hk
  have above : ∀ k, ∀ j, k < j → j < MAX_FREQS → (freqAt k).Hz < (freqAt j).Hz :=
    fun k j hj hj2 => freq_set_lt k j hj hj2
  refine ⟨?_, ?_, ?_, ?_⟩
  · intro hd hf hlow
    exact appliesEntry_of_index cfg s f dir i hfire hb hi22 (bandIndex_up f dir hd i hi22 hf hlow)
  · intro hd hf hhigh
    exact appliesEntry_of_index cfg s f dir i hfire hb hi22
      (bandIndex_down f dir hd i hi22 hf hhigh)
  · intro hi1 hlo hup
    have hi1b : i + 1 < 22 := hi1
    constructor
    · intro hd
      refine appliesEntry_of_index cfg s f dir (i + 1) hfire hb hi1b
        (bandIndex_up f dir hd (i + 1) hi1b hup ?_)
      intro j hj
      rcases Nat.lt_or_ge j i with h | h
      · have := below i hi22 j h
        omega
      · have : j = i := by omega
        subst this; omega
    · intro hd
      refine appliesEntry_of_index cfg s f dir i hfire hb hi22
        (bandIndex_down f dir hd i hi22 hlo ?_)
      intro j hj hj2
      rcases Nat.lt_or_ge (i + 1) j with h | h
      · have := above (i + 1) j h hj2
        omega
      · have : j = i + 1 := by omega
        subst this; omega
  · intro hf
    constructor
    · intro hd hi1
      have hi1b : i + 1 < 22 := hi1
      have hidx : bandIndex f dir = ((i + 1 : Nat) : Int) := by
        refine bandIndex_up f dir hd (i + 1) hi1b ?_ ?_
        · have := above i (i + 1) (by omega) hi1
          omega
        · intro j hj
          rcases Nat.lt_or_ge j i with h | h
          · have := below i hi22 j h
            omega
          · have : j = i := by omega
            subst this; omega
      refine ⟨appliesEntry_of_index cfg s f dir (i + 1) hfire hb hi1b hidx, ?_⟩
      rw [hidx]; push_cast; omega
    · intro hd hpos
      have hi1b : i - 1 < 22 := by omega
      have hidx : bandIndex f dir = ((i - 1 : Nat) : Int) := by
        refine bandIndex_down f dir hd (i - 1) hi1b ?_ ?_
        · have := below i hi22 (i - 1) (by omega)
          omega
        · intro j hj hj2
          rcases Nat.lt_or_ge i j with h | h
          · have := above i j h hj2
            omega
          · have : j = i := by omega
            subst this; omega
      refine ⟨appliesEntry_of_index cfg s f dir (i - 1) hfire hb hi1b hidx, ?_⟩
      rw [hidx]; omega

/-- Witness for C1: with the accumulator at 3, `setBandFreq(3600000, +1)` fires
and applies entry 1: 3,690,000 Hz with `cwMode = false` and `isUSB = false`. -/
theorem setBandFreq_strict_neighbour_witness :
    fires ({ sampleState with enccnt := 3 } : VfoState).enccnt 1 = true ∧
    bandsInRange sampleConfig ∧
    bandIndex 3600000 1 = 1 ∧
    (setBandFreq sampleConfig 3600000 1 { sampleState with enccnt := 3 }).frequency = 3690000 ∧
    (setBandFreq sampleConfig 3600000 1 { sampleState with enccnt := 3 }).cwMode = false ∧
    (setBandFreq sampleConfig 3600000 1 { sampleState with enccnt := 3 }).isUSB = false := by
  have h := (setBandFreq_strict_neighbour sampleConfig { sampleState with enccnt := 3 }
    3600000 1 (by decide) (by decide) 1 (by decide)).1 (by decide) (by decide) (by decide)
  refine ⟨by decide, by decide, h.1, ?_, ?_, ?_⟩ <;> rw [h.2] <;> decide

/-- C2: boundary clamping of a fired `setBandFreq(f, dir)`.  Going down from a
frequency not above the first entry applies the first entry (index 0); going up
from a frequency not below the last entry applies the last entry (index
`MAX_FREQS - 1`); and in every case the applied index lies in
`[0, MAX_FREQS - 1]` and the entry at that index is the one applied. -/
theorem setBandFreq_clamps (cfg : Config) (s : VfoState) (f : Nat) (dir : Int)
    (hfire : fires s.enccnt dir = true) (hb : bandsInRange cfg) :
    (dir < 0 → f ≤ (freqAt 0).Hz → appliesEntry cfg s f dir 0) ∧
    (0 < dir → (freqAt (MAX_FREQS - 1)).Hz ≤ f → appliesEntry cfg s f dir (MAX_FREQS - 1)) ∧
    (0 ≤ bandIndex f dir ∧ bandIndex f dir ≤ (MAX_FREQS : Int) - 1) ∧
    appliesEntry cfg s f dir (bandIndex f dir).toNat := by
  have hr := bandIndex_range f dir
  refine ⟨?_, ?_, hr, ?_⟩
  · intro hd hf
    exact appliesEntry_of_index cfg s f dir 0 hfire hb (by decide)
      (by simpa using bandIndex_none_down f dir hd hf)
  · intro hd hf
    exact appliesEntry_of_index cfg s f dir (MAX_FREQS - 1) hfire hb (by decide)
      (by simpa [MAX_FREQS] using bandIndex_none_up f dir (by omega) hf)
  · have h22 : ((MAX_FREQS : Nat) : Int) = 22 := by decide
    refine appliesEntry_of_index cfg s f dir _ hfire hb (by omega) ?_
    rw [Int.toNat_of_nonneg hr.1]

/-- Witness for C2: with the accumulator at -3, `setBandFreq(3500000, -1)` fires
and clamps to entry 0: 3,560,000 Hz with `cwMode = true`. -/
theorem setBandFreq_clamps_witness :
    fires ({ sampleState with enccnt := -3 } : VfoState).enccnt (-1) = true ∧
    bandsInRange sampleConfig ∧
    bandIndex 3500000 (-1) = 0 ∧
    (setBandFreq sampleConfig 3500000 (-1) { sampleState with enccnt := -3 }).frequency
      = 3560000 ∧
    (setBandFreq sampleConfig 3500000 (-1) { sampleState with enccnt := -3 }).cwMode = true := by
  have h := (setBandFreq_clamps sampleConfig { sampleState with enccnt := -3 }
    3500000 (-1) (by decide) (by decide)).1 (by decide) (by decide)
  refine ⟨by decide, by decide, by simpa using h.1, ?_, ?_⟩ <;> rw [h.2] <;> decide

/-! ## Hysteresis -/

/-- C4: hysteresis of `setBandFreq`.  Every call for which `|enccnt + dir| < 4`
changes only the accumulator, to `enccnt + dir`, and nothing else in the state;
and starting from an accumulator of zero, any sequence of fewer than 4 calls that
all have `d = +1` (or all have `d = -1`) leaves the state unchanged apart from
the accumulator, which counts the calls. -/
theorem setBandFreq_hysteresis (cfg : Config) (s : VfoState) :
    (∀ (f : Nat) (dir : Int), |s.enccnt + dir| < 4 →
        setBandFreq cfg f dir s = { s with enccnt := s.enccnt + dir }) ∧
    (s.enccnt = 0 → ∀ calls : List (Nat × Int), calls.length < 4 →
        ((∀ c ∈ calls, c.2 = 1) →
          runBand cfg calls s = { s with enccnt := (calls.length : Int) }) ∧
        ((∀ c ∈ calls, c.2 = -1) →
          runBand cfg calls s = { s with enccnt := -(calls.length : Int) })) := by
  refine ⟨fun f dir h => setBandFreq_quiet cfg s f dir h, ?_⟩
  intro h0 calls hlen
  have hlen2 : |s.enccnt| + (calls.length : Int) < 4 := by
    rw [h0]; simp; omega
  constructor
  · intro hall
    rw [runBand_same_direction cfg 1 (Or.inl rfl) calls s hall hlen2 (by rw [h0]; simp), h0]
    simp
  · intro hall
    rw [runBand_same_direction cfg (-1) (Or.inr rfl) calls s hall hlen2 (by rw [h0]; simp), h0]
    simp

/-- Witness for C4: three upward ticks from an accumulator of zero leave the
working frequency and mode of the sample state as they were; the accumulator
holds 3. -/
theorem setBandFreq_hysteresis_witness :
    sampleState.enccnt = 0 ∧
    runBand sampleConfig [(7100000, 1), (7100000, 1), (7100000, 1)] sampleState
      = { sampleState with enccnt := 3 } ∧
    setBandFreq sampleConfig 7100000 1 sampleState = { sampleState with enccnt := 0 + 1 } :=
  ⟨rfl,
   ((setBandFreq_hysteresis sampleConfig sampleState).2 rfl
      [(7100000, 1), (7100000, 1), (7100000, 1)] (by decide)).1 (by decide),
   (setBandFreq_hysteresis sampleConfig sampleState).1 7100000 1 (by decide)⟩

/-! ## Split and band-select exclude each other -/

/-- C5: the predicate "not (`splitOn` and `bandSelectOn`)" is preserved by every
operation that writes either flag: `splitToggle`, `toggleBandSelect`,
`Act2Inact` and the entry step of `fastTune`.  In particular `splitToggle` called
with `bandSelectOn = true` ends with `bandSelectOn = false`, and
`toggleBandSelect` called with `bandSelectOn = false` and `splitOn = true` ends
with `splitOn = false` and `bandSelectOn = true`. -/
theorem split_bandSelect_exclusive (cfg : Config) (s : VfoState) :
    (¬ (s.splitOn = true ∧ s.bandSelectOn = true) →
        ¬ ((splitToggle cfg s).splitOn = true ∧ (splitToggle cfg s).bandSelectOn = true) ∧
        ¬ ((toggleBandSelect cfg s).splitOn = true ∧
            (toggleBandSelect cfg s).bandSelectOn = true) ∧
        ¬ ((Act2Inact cfg s).splitOn = true ∧ (Act2Inact cfg s).bandSelectOn = true) ∧
        ¬ ((fastTuneEntry cfg s).splitOn = true ∧
            (fastTuneEntry cfg s).bandSelectOn = true)) ∧
    (s.bandSelectOn = true → (splitToggle cfg s).bandSelectOn = false) ∧
    (s.bandSelectOn = false → s.splitOn = true →
        (toggleBandSelect cfg s).splitOn = false ∧
        (toggleBandSelect cfg s).bandSelectOn = true) := by
  obtain ⟨frequency, isUSB, cwMode, vfoA, vfoB, isUsbVfoA, isUsbVfoB, vfoAcwMode, vfoBcwMode,
    vfoActive, splitOn, bandSelectOn, oneKhzOn, inTx, enccnt⟩ := s
  refine ⟨?_, ?_, ?_⟩
  · intro hinv
    refine ⟨?_, ?_, ?_, ?_⟩
    · cases bandSelectOn <;> simp [splitToggle_eq]
    · cases bandSelectOn <;> cases splitOn <;>
        simp_all [toggleBandSelect_eq, applyBand, setFrequency]
    · rw [Act2Inact_eq]
      split <;> simp
    · cases bandSelectOn <;> cases splitOn <;>
        simp_all [fastTuneEntry, toggleBandSelect_eq]
  · intro hb
    simp only at hb
    subst hb
    simp [splitToggle_eq]
  · intro hb hs
    simp only at hb hs
    subst hb hs
    simp [toggleBandSelect_eq, applyBand, setFrequency]

/-- Witness for C5: from the sample state with split on and band select off (the
predicate holds), `toggleBandSelect` ends with split off and band select on, and
a following `splitToggle` ends with band select off and split on. -/
theorem split_bandSelect_exclusive_witness :
    ¬ (({ sampleState with splitOn := true } : VfoState).splitOn = true ∧
        ({ sampleState with splitOn := true } : VfoState).bandSelectOn = true) ∧
    ¬ ((Act2Inact sampleConfig { sampleState with splitOn := true }).splitOn = true ∧
        (Act2Inact sampleConfig { sampleState with splitOn := true }).bandSelectOn = true) ∧
    ((toggleBandSelect sampleConfig { sampleState with splitOn := true }).splitOn = false ∧
      (toggleBandSelect sampleConfig { sampleState with splitOn := true }).bandSelectOn
        = true) ∧
    (splitToggle sampleConfig { sampleState with bandSelectOn := true }).bandSelectOn = false :=
  ⟨by decide,
   ((split_bandSelect_exclusive sampleConfig { sampleState with splitOn := true }).1
      (by decide)).2.2.1,
   (split_bandSelect_exclusive sampleConfig { sampleState with splitOn := true }).2.2 rfl rfl,
   (split_bandSelect_exclusive sampleConfig { sampleState with bandSelectOn := true }).2.1 rfl⟩

/-! ## Copy active to inactive -/

/-- C6: postcondition of `Act2Inact`.  For every state with `vfoActive` equal to
`VFO_A` or `VFO_B`, after `Act2Inact` both slots hold the working values
(frequency, `isUSB`, `cwMode`), `splitOn` is true whatever it was before, and the
working frequency, `isUSB`, `cwMode` and `vfoActive` are unchanged. -/
theorem Act2Inact_postcondition (cfg : Config) (s : VfoState)
    (hv : s.vfoActive = cfg.VFO_A ∨ s.vfoActive = cfg.VFO_B) :
    (Act2Inact cfg s).vfoA = s.frequency ∧ (Act2Inact cfg s).vfoB = s.frequency ∧
    (Act2Inact cfg s).isUsbVfoA = s.isUSB ∧ (Act2Inact cfg s).isUsbVfoB = s.isUSB ∧
    (Act2Inact cfg s).vfoAcwMode = s.cwMode ∧ (Act2Inact cfg s).vfoBcwMode = s.cwMode ∧
    (Act2Inact cfg s).splitOn = true ∧
    (Act2Inact cfg s).frequency = s.frequency ∧ (Act2Inact cfg s).isUSB = s.isUSB ∧
    (Act2Inact cfg s).cwMode = s.cwMode ∧ (Act2Inact cfg s).vfoActive = s.vfoActive := by
  rw [Act2Inact_eq, if_pos hv]
  simp

/-- Witness for C6: in the sample state VFO A is active on 7,100,000 Hz with
VFO B on 14,200,000 Hz and split off; after `Act2Inact` VFO B holds 7,100,000 Hz
and split is on. -/
theorem Act2Inact_postcondition_witness :
    sampleState.vfoActive = sampleConfig.VFO_A ∧ sampleState.vfoB = 14200000 ∧
    sampleState.splitOn = false ∧
    (Act2Inact sampleConfig sampleState).vfoB = 7100000 ∧
    (Act2Inact sampleConfig sampleState).splitOn = true :=
  ⟨rfl, rfl, rfl,
   (Act2Inact_postcondition sampleConfig sampleState (Or.inl rfl)).2.1,
   (Act2Inact_postcondition sampleConfig sampleState (Or.inl rfl)).2.2.2.2.2.2.1⟩

/-- C7: `Act2Inact` is idempotent: for every state, applying it twice in
immediate succession yields the same whole state (both slots, `splitOn`,
`bandSelectOn`, the working triple, the accumulator) as applying it once. -/
theorem Act2Inact_idempotent (cfg : Config) (s : VfoState) :
    Act2Inact cfg (Act2Inact cfg s) = Act2Inact cfg s := by
  rw [Act2Inact_eq cfg (Act2Inact cfg s), Act2Inact_eq cfg s]
  by_cases hv : s.vfoActive = cfg.VFO_A ∨ s.vfoActive = cfg.VFO_B
  · simp [hv]
  · simp [hv]

/-! ## Transmit target -/

/-- C8: the transmit VFO computed by `drawTx`.  It is `vfoActive` when `inTx` is
true; the other VFO when `inTx` is false and `splitOn` is true; and `vfoActive`
otherwise.  With VFO A active, split off, band select off and not transmitting it
is VFO A, and after one `splitToggle` it is VFO B. -/
theorem TxVfo_resolution (cfg : Config) (s : VfoState) :
    (s.inTx = true → TxVfo cfg s = s.vfoActive) ∧
    (s.inTx = false → s.splitOn = true →
        (s.vfoActive = cfg.VFO_A → TxVfo cfg s = cfg.VFO_B) ∧
        (s.vfoActive = cfg.VFO_B → TxVfo cfg s = cfg.VFO_A)) ∧
    (s.inTx = false → s.splitOn = false → TxVfo cfg s = s.vfoActive) ∧
    (s.vfoActive = cfg.VFO_A → s.splitOn = false → s.inTx = false →
        s.bandSelectOn = false →
        TxVfo cfg s = cfg.VFO_A ∧ TxVfo cfg (splitToggle cfg s) = cfg.VFO_B) := by
  refine ⟨?_, ?_, ?_, ?_⟩
  · intro h
    simp [TxVfo, h]
  · intro h1 h2
    constructor
    · intro hA
      simp [TxVfo, h1, h2, hA]
    · intro hB
      by_cases hA : s.vfoActive = cfg.VFO_A
      · simp [TxVfo, h1, h2, hA, ← hB]
      · simp [TxVfo, h1, h2, hA]
  · intro h1 h2
    simp [TxVfo, h1, h2]
  · intro hA h2 h1 hb
    simp [TxVfo, splitToggle_eq, h1, h2, hA, hb]

/-- Witness for C8: the sample state has VFO A (0) active, split off, band select
off and is not transmitting: the target is A (0), and after `splitToggle` it is
B (1). -/
theorem TxVfo_resolution_witness :
    TxVfo sampleConfig sampleState = 0 ∧
    TxVfo sampleConfig (splitToggle sampleConfig sampleState) = 1 :=
  (TxVfo_resolution sampleConfig sampleState).2.2.2 rfl rfl rfl rfl

/-! ## Turning band select on -/

/-- C9: turning band select on immediately activates a valid band entry.  For
every state with `bandSelectOn = false`, whatever the accumulator and the working
frequency `f`, after `toggleBandSelect` the flag `bandSelectOn` is true and the
working frequency, `cwMode` and `isUSB` are those of the `freq_set` entry that an
upward scan from `f` selects: the first entry with frequency above `f`, else the
last entry. -/
theorem toggleBandSelect_on_applies_band (cfg : Config) (s : VfoState)
    (hoff : s.bandSelectOn = false) (hb : bandsInRange cfg) :
    (toggleBandSelect cfg s).bandSelectOn = true ∧
    (0 ≤ bandIndex s.frequency 1 ∧ bandIndex s.frequency 1 ≤ (MAX_FREQS : Int) - 1) ∧
    toggleBandSelect cfg s =
      bandApplied { s with splitOn := false, bandSelectOn := true }
        (bandIndex s.frequency 1).toNat ∧
    (toggleBandSelect cfg s).frequency = (freqAt (bandIndex s.frequency 1).toNat).Hz ∧
    (toggleBandSelect cfg s).cwMode
      = ((freqAt (bandIndex s.frequency 1).toNat).bitValues &&& bCW != 0) ∧
    (toggleBandSelect cfg s).isUSB
      = ((freqAt (bandIndex s.frequency 1).toNat).bitValues &&& bUSB != 0) ∧
    (∀ i, i < MAX_FREQS → s.frequency < (freqAt i).Hz →
        (∀ j, j < i → (freqAt j).Hz ≤ s.frequency) → bandIndex s.frequency 1 = (i : Int)) ∧
    ((∀ j, j < MAX_FREQS → (freqAt j).Hz ≤ s.frequency) →
        bandIndex s.frequency 1 = (MAX_FREQS : Int) - 1) := by
  have hr := bandIndex_range s.frequency 1
  have h22 : ((MAX_FREQS : Nat) : Int) = 22 := by decide
  have hk : (bandIndex s.frequency 1).toNat < 22 := by omega
  have heq : toggleBandSelect cfg s =
      bandApplied { s with splitOn := false, bandSelectOn := true }
        (bandIndex s.frequency 1).toNat := by
    rw [toggleBandSelect_eq, hoff, if_neg (by simp),
      applyBand_inRange cfg _ _ (hb _ (freqAt_mem _ hk))]
    rfl
  refine ⟨?_, hr, heq, ?_, ?_, ?_, ?_, ?_⟩
  · rw [heq]; rfl
  · rw [heq]; rfl
  · rw [heq]; rfl
  · rw [heq]; rfl
  · intro i hi hf hlow
    exact bandIndex_up s.frequency 1 (by decide) i hi hf hlow
  · intro hall
    have := bandIndex_none_up s.frequency 1 (by decide) (hall 21 (by decide))
    rw [this, h22]; rfl

/-- Witness for C9: band select is off in the sample state, tuned to
7,100,000 Hz; `toggleBandSelect` turns it on and applies entry 5, "40 SSB":
7,285,000 Hz, lower sideband, CW off. -/
theorem toggleBandSelect_on_applies_band_witness :
    sampleState.bandSelectOn = false ∧ bandsInRange sampleConfig ∧
    (toggleBandSelect sampleConfig sampleState).bandSelectOn = true ∧
    bandIndex sampleState.frequency 1 = 5 ∧
    (toggleBandSelect sampleConfig sampleState).frequency = 7285000 ∧
    (toggleBandSelect sampleConfig sampleState).cwMode = false ∧
    (toggleBandSelect sampleConfig sampleState).isUSB = false := by
  have h := toggleBandSelect_on_applies_band sampleConfig sampleState rfl (by decide)
  refine ⟨rfl, by decide, h.1, by decide, ?_, ?_, ?_⟩
  · rw [h.2.2.2.1]; decide
  · rw [h.2.2.2.2.1]; decide
  · rw [h.2.2.2.2.2.1]; decide

/-! ## Facts about fast tune, frequency entry, navigation and dispatch -/

theorem fastTuneStep_frequency (cfg : Config) (s : VfoState) (encoder : Int)
    (hb : cfg.LOWEST_FREQ ≤ cfg.HIGHEST_FREQ) (he : encoder ≠ 0) :
    fastTuneStep cfg encoder s =
      { s with
        frequency := max cfg.LOWEST_FREQ (min cfg.HIGHEST_FREQ
          ((s.frequency + (if encoder > 0 then 50000 else 2 ^ 32 - 50000)) % 2 ^ 32)) } := by
  unfold fastTuneStep setFrequency
  simp only [he, ne_eq, not_false_eq_true, if_true]
  generalize (s.frequency + (if encoder > 0 then 50000 else 2 ^ 32 - 50000)) % 2 ^ 32 = x
  by_cases h1 : x > cfg.HIGHEST_FREQ
  · have h2 : ¬ cfg.HIGHEST_FREQ < cfg.LOWEST_FREQ := by omega
    have h3 : max cfg.LOWEST_FREQ (min cfg.HIGHEST_FREQ x) = cfg.HIGHEST_FREQ := by omega
    simp [h1, h2, h3]
  · by_cases h2 : x < cfg.LOWEST_FREQ
    · have h3 : max cfg.LOWEST_FREQ (min cfg.HIGHEST_FREQ x) = cfg.LOWEST_FREQ := by omega
      have h4 : ¬ cfg.HIGHEST_FREQ < cfg.LOWEST_FREQ := by omega
      simp [h1, h2, h3, h4]
    · have h3 : max cfg.LOWEST_FREQ (min cfg.HIGHEST_FREQ x) = x := by omega
      have h4 : ¬ cfg.HIGHEST_FREQ < x := by omega
      simp [h1, h2, h3, h4]

theorem fastTuneStep_inBounds (cfg : Config) (s : VfoState) (encoder : Int)
    (hb : cfg.LOWEST_FREQ ≤ cfg.HIGHEST_FREQ) (he : encoder ≠ 0) :
    cfg.LOWEST_FREQ ≤ (fastTuneStep cfg encoder s).frequency ∧
    (fastTuneStep cfg encoder s).frequency ≤ cfg.HIGHEST_FREQ := by
  rw [fastTuneStep_frequency cfg s encoder hb he]
  simp only []
  constructor <;> omega

theorem fastTuneStep_up (cfg : Config) (s : VfoState) (encoder : Int)
    (hb : cfg.LOWEST_FREQ ≤ cfg.HIGHEST_FREQ) (hlo : cfg.LOWEST_FREQ ≤ s.frequency)
    (he : 0 < encoder) (hw : s.frequency + 50000 < 2 ^ 32) :
    fastTuneStep cfg encoder s =
      { s with frequency := min (s.frequency + 50000) cfg.HIGHEST_FREQ } := by
  have hmod : (s.frequency + 50000) % 2 ^ 32 = s.frequency + 50000 := Nat.mod_eq_of_lt hw
  have hfreq : max cfg.LOWEST_FREQ (min cfg.HIGHEST_FREQ
      ((s.frequency + (if encoder > 0 then 50000 else 2 ^ 32 - 50000)) % 2 ^ 32))
      = min (s.frequency + 50000) cfg.HIGHEST_FREQ := by
    have hif : (if encoder > 0 then 50000 else 2 ^ 32 - 50000 : Nat) = 50000 := if_pos he
    rw [hif, hmod]
    omega
  rw [fastTuneStep_frequency cfg s encoder hb (by omega), hfreq]

theorem fastTuneStep_down (cfg : Config) (s : VfoState) (encoder : Int)
    (hb : cfg.LOWEST_FREQ ≤ cfg.HIGHEST_FREQ) (hhi : s.frequency ≤ cfg.HIGHEST_FREQ)
    (h32 : s.frequency < 2 ^ 32) (he : encoder < 0) (hw : 50000 ≤ s.frequency) :
    fastTuneStep cfg encoder s =
      { s with frequency := max (s.frequency - 50000) cfg.LOWEST_FREQ } := by
  have he1 : ¬ 0 < encoder := by omega
  have hmod : (s.frequency + (2 ^ 32 - 50000)) % 2 ^ 32 = s.frequency - 50000 := by omega
  have hfreq : max cfg.LOWEST_FREQ (min cfg.HIGHEST_FREQ
      ((s.frequency + (if encoder > 0 then 50000 else 2 ^ 32 - 50000)) % 2 ^ 32))
      = max (s.frequency - 50000) cfg.LOWEST_FREQ := by
    have hif : (if encoder > 0 then 50000 else 2 ^ 32 - 50000 : Nat) = 2 ^ 32 - 50000 :=
      if_neg he1
    rw [hif, hmod]
    omega
  rw [fastTuneStep_frequency cfg s encoder hb (by omega), hfreq]

theorem doCommandsTurn_range (i select : Int) (h0 : 0 ≤ select)
    (h1 : select ≤ (MAX_BUTTONS : Int) - 1) :
    0 ≤ doCommandsTurn i select ∧ doCommandsTurn i select ≤ (MAX_BUTTONS : Int) - 1 := by
  unfold doCommandsTurn
  simp only []
  split
  · exact ⟨h0, h1⟩
  · split <;> split <;> try split
    all_goals constructor <;> omega

theorem foldl_doCommandsTurn_range (deltas : List Int) :
    ∀ select : Int, 0 ≤ select → select ≤ (MAX_BUTTONS : Int) - 1 →
      0 ≤ deltas.foldl (fun sel i => doCommandsTurn i sel) select ∧
      deltas.foldl (fun sel i => doCommandsTurn i sel) select ≤ (MAX_BUTTONS : Int) - 1 := by
  induction deltas with
  | nil => intro select h0 h1; exact ⟨h0, h1⟩
  | cons i rest ih =>
    intro select h0 h1
    have h := doCommandsTurn_range i select h0 h1
    exact ih _ h.1 h.2

theorem doCommandBranch_none (text : String) (h : text ∉ registered) :
    doCommandBranch text = none := by
  simp only [registered, List.mem_cons, List.mem_singleton, not_or, List.mem_nil_iff,
    or_false] at h
  obtain ⟨h1, h2, h3, h4, h5, h6, h7, h8, h9, h10, h11, h12, h13, h14⟩ := h
  simp [doCommandBranch, h1, h2, h3, h4, h5, h6, h7, h8, h9, h10, h11, h12, h13, h14]

/-! ## Fast tune -/

/-- Counterexample for C12: with limits 10 kHz and 30 MHz and the radio on
40,000 Hz (inside the limits), one downward fast-tune step yields 30,000,000 Hz,
the upper limit, not `max(40000 - 50000, 10000) = 10000`: the unsigned
subtraction wraps around.  Likewise with an upper limit of `2^32 - 1` and the
radio on 4,294,960,000 Hz one upward step wraps and yields the lower limit
100,000 Hz, not the upper limit. -/
theorem fastTuneStep_wraps :
    lowLimitConfig.LOWEST_FREQ ≤ 40000 ∧ 40000 ≤ lowLimitConfig.HIGHEST_FREQ ∧
    (fastTuneStep lowLimitConfig (-1) { sampleState with frequency := 40000 }).frequency
      = 30000000 ∧
    max ((40000 : Int) - 50000) (lowLimitConfig.LOWEST_FREQ : Int) = 10000 ∧
    max (40000 - 50000) lowLimitConfig.LOWEST_FREQ = 10000 ∧
    (fastTuneStep ⟨0, 1, 100000, 4294967295⟩ 1
      { sampleState with frequency := 4294960000 }).frequency = 100000 ∧
    min (4294960000 + 50000) 4294967295 = 4294967295 := by
  decide

/-- C12 (amended): one fast-tune step keeps the working frequency in bounds.
For limits with `LOWEST_FREQ <= HIGHEST_FREQ` and every working frequency `f`
inside them, held in 32 bits: a step with encoder delta `> 0` yields
`min(f + 50000, HIGHEST_FREQ)` when `f + 50000` stays below `2^32`; a step with
delta `< 0` yields `max(f - 50000, LOWEST_FREQ)` when `f >= 50000`; and for every
non-zero delta the result lies within `[LOWEST_FREQ, HIGHEST_FREQ]`.  Nothing
but the working frequency changes. -/
theorem fastTuneStep_clamped (cfg : Config) (s : VfoState) (encoder : Int)
    (hb : cfg.LOWEST_FREQ ≤ cfg.HIGHEST_FREQ)
    (hlo : cfg.LOWEST_FREQ ≤ s.frequency) (hhi : s.frequency ≤ cfg.HIGHEST_FREQ)
    (h32 : s.frequency < 2 ^ 32) :
    (0 < encoder → s.frequency + 50000 < 2 ^ 32 →
        fastTuneStep cfg encoder s
          = { s with frequency := min (s.frequency + 50000) cfg.HIGHEST_FREQ }) ∧
    (encoder < 0 → 50000 ≤ s.frequency →
        fastTuneStep cfg encoder s
          = { s with frequency := max (s.frequency - 50000) cfg.LOWEST_FREQ }) ∧
    (encoder ≠ 0 →
        cfg.LOWEST_FREQ ≤ (fastTuneStep cfg encoder s).frequency ∧
        (fastTuneStep cfg encoder s).frequency ≤ cfg.HIGHEST_FREQ) :=
  ⟨fun he hw => fastTuneStep_up cfg s encoder hb hlo he hw,
   fun he hw => fastTuneStep_down cfg s encoder hb hhi h32 he hw,
   fun he => fastTuneStep_inBounds cfg s encoder hb he⟩

/-- Witness for C12 (amended): with limits 100 kHz and 30 MHz, one upward step
from 7,100,000 Hz gives 7,150,000 Hz and one downward step gives 7,050,000 Hz. -/
theorem fastTuneStep_clamped_witness :
    (fastTuneStep sampleConfig 1 sampleState).frequency = 7150000 ∧
    (fastTuneStep sampleConfig (-1) sampleState).frequency = 7050000 := by
  have h := fastTuneStep_clamped sampleConfig sampleState
  constructor
  · rw [(h 1 (by decide) (by decide) (by decide) (by decide)).1 (by decide) (by decide)]
    decide
  · rw [(h (-1) (by decide) (by decide) (by decide) (by decide)).2.1 (by decide) (by decide)]
    decide

/-! ## Menu navigation -/

/-- C13: focus selection in `doCommands` saturates and stays in range.  For
every index `select` in `[0, MAX_BUTTONS - 1]` and every non-zero encoder
reading, of any size, one pass of the menu loop yields
`min(select + 1, MAX_BUTTONS - 1)` for a positive reading and
`max(select - 1, 0)` for a negative one; hence, from the initial index (0 when
VFO A is active, 1 otherwise), `select` is a valid index into `btn_set` after
any sequence of encoder readings. -/
theorem doCommands_select_in_range :
    (∀ (select i : Int), 0 ≤ select → select ≤ (MAX_BUTTONS : Int) - 1 →
        (0 < i → doCommandsTurn i select = min (select + 1) ((MAX_BUTTONS : Int) - 1)) ∧
        (i < 0 → doCommandsTurn i select = max (select - 1) 0)) ∧
    btn_set.length = MAX_BUTTONS ∧
    (∀ (cfg : Config) (s : VfoState),
        doCommandsSelect cfg s [] = (if s.vfoActive = cfg.VFO_A then 0 else 1)) ∧
    (∀ (cfg : Config) (s : VfoState) (deltas : List Int),
        0 ≤ doCommandsSelect cfg s deltas ∧
        (doCommandsSelect cfg s deltas).toNat < btn_set.length) := by
  have hM : ((MAX_BUTTONS : Nat) : Int) = 14 := by decide
  have hL : btn_set.length = 14 := by decide
  refine ⟨?_, by decide, fun cfg s => rfl, ?_⟩
  · intro select i h0 h1
    constructor
    · intro hi
      unfold doCommandsTurn
      have hi0 : ¬ i = 0 := by omega
      have hi1 : ¬ i < 0 := by omega
      simp only [hi0, if_false, hi, gt_iff_lt, if_true, hi1, false_and]
      split <;> omega
    · intro hi
      unfold doCommandsTurn
      have hi0 : ¬ i = 0 := by omega
      have hi1 : ¬ i > 0 := by omega
      simp only [hi0, if_false, hi1, hi, true_and]
      split <;> omega
  · intro cfg s deltas
    have h := foldl_doCommandsTurn_range deltas (if s.vfoActive = cfg.VFO_A then 0 else 1)
      (by split <;> decide) (by split <;> decide)
    unfold doCommandsSelect
    rw [hL]
    constructor
    · exact h.1
    · omega

/-- Witness for C13: from the last index 13 an upward reading of any size keeps
13, from index 0 a downward reading keeps 0, from index 5 they give 6 and 4; and
with VFO A active, the readings 3, 1, -1, -7, 2 lead from index 0 to index 1. -/
theorem doCommands_select_in_range_witness :
    doCommandsTurn 9 13 = min (13 + 1) ((MAX_BUTTONS : Int) - 1) ∧
    doCommandsTurn (-4) 0 = max (0 - 1) 0 ∧
    doCommandsTurn 1 5 = min (5 + 1) ((MAX_BUTTONS : Int) - 1) ∧
    doCommandsTurn (-1) 5 = max (5 - 1) 0 ∧
    doCommandsSelect sampleConfig sampleState [3, 1, -1, -7, 2] = 1 ∧
    (doCommandsSelect sampleConfig sampleState [3, 1, -1, -7, 2]).toNat < btn_set.length :=
  ⟨(doCommands_select_in_range.1 13 9 (by decide) (by decide)).1 (by decide),
   (doCommands_select_in_range.1 0 (-4) (by decide) (by decide)).2 (by decide),
   (doCommands_select_in_range.1 5 1 (by decide) (by decide)).1 (by decide),
   (doCommands_select_in_range.1 5 (-1) (by decide) (by decide)).2 (by decide),
   by decide,
   (doCommands_select_in_range.2.2.2 sampleConfig sampleState [3, 1, -1, -7, 2]).2⟩

/-! ## Facts about the keypad value -/

theorem atol_small (k : Nat) (hk : k < 2 ^ 31) : atol k = (k : Int) := by
  have h1 : k % 2 ^ 32 = k := Nat.mod_eq_of_lt (by omega)
  unfold atol
  rw [h1, if_pos hk]

theorem enterFreqOK_accept (cfg : Config) (s : VfoState) (k : Nat) (hk : k < 2 ^ 31)
    (h32 : cfg.HIGHEST_FREQ < 2 ^ 32)
    (hlo : cfg.LOWEST_FREQ < k * 1000) (hhi : k * 1000 ≤ cfg.HIGHEST_FREQ) :
    enterFreqOK cfg k s =
      if s.vfoActive = cfg.VFO_A then { s with frequency := k * 1000, vfoA := k * 1000 }
      else { s with frequency := k * 1000, vfoB := k * 1000 } := by
  have hg : ((cfg.HIGHEST_FREQ / 1000 : Nat) : Int) ≥ (k : Int) ∧
      (k : Int) > ((cfg.LOWEST_FREQ / 1000 : Nat) : Int) := by
    constructor <;> omega
  have ht : ((k : Int) * 1000).toNat % 2 ^ 32 = k * 1000 := by omega
  have h1 : ¬ k * 1000 < cfg.LOWEST_FREQ := by omega
  have h2 : ¬ cfg.HIGHEST_FREQ < k * 1000 := by omega
  unfold enterFreqOK
  simp only [atol_small k hk]
  rw [if_pos hg, ht]
  simp only [setFrequency, h1, h2, if_false]

theorem enterFreqOK_reject (cfg : Config) (s : VfoState) (k : Nat) (hk : k < 2 ^ 31)
    (h : cfg.HIGHEST_FREQ < k * 1000 ∨ k * 1000 ≤ cfg.LOWEST_FREQ) :
    enterFreqOK cfg k s = s := by
  have hg : ¬ (((cfg.HIGHEST_FREQ / 1000 : Nat) : Int) ≥ (k : Int) ∧
      (k : Int) > ((cfg.LOWEST_FREQ / 1000 : Nat) : Int)) := by
    intro hc
    omega
  unfold enterFreqOK
  simp only [atol_small k hk]
  rw [if_neg hg]

/-- Counterexample for C11: with limits 100 kHz and 30 MHz and the radio on
7,100,000 Hz, confirming 40000 kHz (above the upper limit) leaves the working
frequency at 7,100,000 Hz, not at the clamped value 30,000,000 Hz; confirming
50 kHz (below the lower limit) leaves it at 7,100,000 Hz, not at 100,000 Hz;
confirming 100 kHz, exactly the lower limit, is not applied either; and
confirming 4294981496 kHz, which does not fit the `long` of `atol`, sets
14,200,000 Hz, not the clamped value 30,000,000 Hz. -/
theorem enterFreqOK_not_clamped :
    sampleState.frequency = 7100000 ∧
    (enterFreqOK sampleConfig 40000 sampleState).frequency = 7100000 ∧
    clampFreq sampleConfig (40000 * 1000) = 30000000 ∧
    (enterFreqOK sampleConfig 40000 sampleState).frequency
      ≠ clampFreq sampleConfig (40000 * 1000) ∧
    (enterFreqOK sampleConfig 50 sampleState).frequency = 7100000 ∧
    clampFreq sampleConfig (50 * 1000) = 100000 ∧
    (enterFreqOK sampleConfig 100 sampleState).frequency = 7100000 ∧
    clampFreq sampleConfig (100 * 1000) = 100000 ∧
    atol 4294981496 = 14200 ∧
    (enterFreqOK sampleConfig 4294981496 sampleState).frequency = 14200000 ∧
    clampFreq sampleConfig (4294981496 * 1000) = 30000000 := by
  decide

/-- C11 (amended): a frequency entered on the keypad is applied only inside the
limits, and is ignored outside them.  For limits that fit 32 bits and every kHz
value `k` below `2^31` (one that fits the `long` of `atol`) confirmed with OK:
if `LOWEST_FREQ < k * 1000 <= HIGHEST_FREQ`, the working frequency becomes
`k * 1000` and the stored frequency of the active slot (`vfoA` when VFO A is
active, `vfoB` otherwise) is set to the same value, nothing else changing; if
`k * 1000 > HIGHEST_FREQ` or `k * 1000 < LOWEST_FREQ`, the state is left as it
was. -/
theorem enterFreqOK_guarded (cfg : Config) (s : VfoState) (k : Nat)
    (hk : k < 2 ^ 31) (h32 : cfg.HIGHEST_FREQ < 2 ^ 32) :
    (cfg.LOWEST_FREQ < k * 1000 → k * 1000 ≤ cfg.HIGHEST_FREQ →
        (enterFreqOK cfg k s).frequency = k * 1000 ∧
        (s.vfoActive = cfg.VFO_A →
          enterFreqOK cfg k s = { s with frequency := k * 1000, vfoA := k * 1000 }) ∧
        (s.vfoActive ≠ cfg.VFO_A →
          enterFreqOK cfg k s = { s with frequency := k * 1000, vfoB := k * 1000 })) ∧
    (cfg.HIGHEST_FREQ < k * 1000 ∨ k * 1000 < cfg.LOWEST_FREQ →
        enterFreqOK cfg k s = s) := by
  constructor
  · intro hlo hhi
    have h := enterFreqOK_accept cfg s k hk h32 hlo hhi
    refine ⟨?_, ?_, ?_⟩
    · rw [h]; split <;> rfl
    · intro hA; rw [h, if_pos hA]
    · intro hA; rw [h, if_neg hA]
  · intro h
    exact enterFreqOK_reject cfg s k hk (by omega)

/-- Witness for C11 (amended): with limits 100 kHz and 30 MHz and VFO A active,
confirming 14200 kHz sets the working frequency and `vfoA` to 14,200,000 Hz;
confirming 40000 kHz changes nothing. -/
theorem enterFreqOK_guarded_witness :
    (enterFreqOK sampleConfig 14200 sampleState).frequency = 14200 * 1000 ∧
    enterFreqOK sampleConfig 14200 sampleState
      = { sampleState with frequency := 14200 * 1000, vfoA := 14200 * 1000 } ∧
    enterFreqOK sampleConfig 40000 sampleState = sampleState :=
  ⟨((enterFreqOK_guarded sampleConfig sampleState 14200 (by decide) (by decide)).1
      (by decide) (by decide)).1,
   ((enterFreqOK_guarded sampleConfig sampleState 14200 (by decide) (by decide)).1
      (by decide) (by decide)).2.1 rfl,
   (enterFreqOK_guarded sampleConfig sampleState 40000 (by decide) (by decide)).2
      (Or.inl (by decide))⟩
/-! ## Sideband of an applied band entry -/

/-- C14: dispatch contract of `doCommand`.  For every button label that matches
none of the registered command names, no branch is taken and the whole state is
left unchanged; every registered name takes a branch; the 14 labels of `btn_set`
are distinct and each matches exactly one comparison of the chain; and for each
of the 14 labels `doCommand` takes the branch of that name and runs its handler
(`setCwSpeed` and `setCwTone`, for "WPM" and "TON", write nothing of the VFO
state), so no command of the table falls through to the no-op. -/
theorem doCommand_dispatch (cfg : Config) (out : Outside) (s : VfoState) :
    (∀ text : String, text ∉ registered →
        doCommandBranch text = none ∧ doCommand cfg out text s = s) ∧
    (∀ text : String, text ∈ registered → (doCommandBranch text).isSome = true) ∧
    btn_set.length = MAX_BUTTONS ∧ MAX_BUTTONS = 14 ∧ btn_set.Nodup ∧
    (∀ label : String, label ∈ btn_set →
        (registered.filter (fun n => decide (n = label))).length = 1 ∧
        (doCommandBranch label).isSome = true) ∧
    btn_set.map doCommandBranch =
      [some .VFOA, some .VFOB, some .USB, some .LSB, some .CW, some .A2I, some .SPL,
       some .FRQ, some .BND, some .oneKhz, some .SAV, some .RCL, some .WPM, some .TON] ∧
    doCommand cfg out "VFOA" s =
      (if s.vfoActive = cfg.VFO_A then fastTune cfg out.readings s
       else out.switchVFO cfg.VFO_A s) ∧
    doCommand cfg out "VFOB" s =
      (if s.vfoActive = cfg.VFO_B then fastTune cfg out.readings s
       else out.switchVFO cfg.VFO_B s) ∧
    doCommand cfg out "USB" s = sidebandToggle cfg "USB" s ∧
    doCommand cfg out "LSB" s = sidebandToggle cfg "LSB" s ∧
    doCommand cfg out "CW" s = cwToggle cfg s ∧
    doCommand cfg out "A>I" s = Act2Inact cfg s ∧
    doCommand cfg out "SPL" s = splitToggle cfg s ∧
    doCommand cfg out "FRQ" s = enterFreq cfg out.keyed s ∧
    doCommand cfg out "BND" s = selectBand cfg s ∧
    doCommand cfg out "1Kz" s = oneKhzToggle s ∧
    doCommand cfg out "SAV" s = saveActiveVFO out s ∧
    doCommand cfg out "RCL" s = recallActiveVFO cfg out s ∧
    doCommand cfg out "WPM" s = s ∧
    doCommand cfg out "TON" s = s := by
  have hnone : ∀ text : String, text ∉ registered →
      doCommandBranch text = none ∧ doCommand cfg out text s = s := by
    intro text h
    have hb := doCommandBranch_none text h
    refine ⟨hb, ?_⟩
    unfold doCommand
    rw [hb]
  have b1 : doCommandBranch "VFOA" = some .VFOA := by decide
  have b2 : doCommandBranch "VFOB" = some .VFOB := by decide
  have b3 : doCommandBranch "USB" = some .USB := by decide
  have b4 : doCommandBranch "LSB" = some .LSB := by decide
  have b5 : doCommandBranch "CW" = some .CW := by decide
  have b6 : doCommandBranch "A>I" = some .A2I := by decide
  have b7 : doCommandBranch "SPL" = some .SPL := by decide
  have b8 : doCommandBranch "FRQ" = some .FRQ := by decide
  have b9 : doCommandBranch "BND" = some .BND := by decide
  have b10 : doCommandBranch "1Kz" = some .oneKhz := by decide
  have b11 : doCommandBranch "SAV" = some .SAV := by decide
  have b12 : doCommandBranch "RCL" = some .RCL := by decide
  have b13 : doCommandBranch "WPM" = some .WPM := by decide
  have b14 : doCommandBranch "TON" = some .TON := by decide
  refine ⟨hnone, by decide, by decide, by decide, by decide, by decide, by decide,
    ?_, ?_, ?_, ?_, ?_, ?_, ?_, ?_, ?_, ?_, ?_, ?_, ?_, ?_⟩
  · unfold doCommand; rw [b1]
  · unfold doCommand; rw [b2]
  · unfold doCommand; rw [b3]
  · unfold doCommand; rw [b4]
  · unfold doCommand; rw [b5]
  · unfold doCommand; rw [b6]
  · unfold doCommand; rw [b7]
  · unfold doCommand; rw [b8]
  · unfold doCommand; rw [b9]
  · unfold doCommand; rw [b10]
  · unfold doCommand; rw [b11]
  · unfold doCommand; rw [b12]
  · unfold doCommand; rw [b13]
  · unfold doCommand; rw [b14]
/-- Witness for C14: "RIT", the label of the button that is commented out of the
table, matches no registered name and leaves the sample state unchanged; the
label "BND" of the table matches exactly one comparison and takes a branch. -/
theorem doCommand_dispatch_witness :
    doCommand sampleConfig sampleOutside "RIT" sampleState = sampleState ∧
    (registered.filter (fun n => decide (n = "BND"))).length = 1 ∧
    (doCommandBranch "BND").isSome = true :=
  ⟨((doCommand_dispatch sampleConfig sampleOutside sampleState).1 "RIT" (by decide)).2,
   (doCommand_dispatch sampleConfig sampleOutside sampleState).2.2.2.2.2.1 "BND" (by decide)⟩

/-! ## Working mode and the active slot -/

/-- Counterexample for C15: in the sample state VFO A is active and the working
flags equal the flags stored for VFO A; after `cwToggle` the working `cwMode` is
true while the stored `vfoAcwMode` is still false, so the working flags no
longer equal the stored flags of the active slot. -/
theorem cwToggle_breaks_sync :
    sampleState.vfoActive = sampleConfig.VFO_A ∧
    inSync sampleConfig sampleState ∧
    (cwToggle sampleConfig sampleState).cwMode = true ∧
    (cwToggle sampleConfig sampleState).vfoAcwMode = false ∧
    ¬ inSync sampleConfig (cwToggle sampleConfig sampleState) := by
  decide

/-- C15 (amended): the mode commands and the flags stored for the slots.  For
every state in which the working mode flags equal the stored flags of the active
slot: after `sidebandToggle` (for the button "USB", "LSB" or any other) the
working flags still equal the stored flags of the active slot, and the sideband
flag of the other slot is unchanged; after `cwToggle` the working `isUSB` still
equals the stored sideband flag of the active slot, the working `cwMode` is
flipped, and no stored flag of either slot is written.  Neither command changes
the stored frequencies or the CW flags of the slots. -/
theorem modeCommands_slot_flags (cfg : Config) (s : VfoState) (text : String)
    (hs : inSync cfg s) :
    inSync cfg (sidebandToggle cfg text s) ∧
    (sidebandToggle cfg text s).isUSB = (decide (text ≠ "LSB")) ∧
    (if s.vfoActive = cfg.VFO_A then (sidebandToggle cfg text s).isUsbVfoB = s.isUsbVfoB
     else (sidebandToggle cfg text s).isUsbVfoA = s.isUsbVfoA) ∧
    ((sidebandToggle cfg text s).vfoAcwMode = s.vfoAcwMode ∧
      (sidebandToggle cfg text s).vfoBcwMode = s.vfoBcwMode ∧
      (sidebandToggle cfg text s).vfoA = s.vfoA ∧
      (sidebandToggle cfg text s).vfoB = s.vfoB ∧
      (sidebandToggle cfg text s).cwMode = s.cwMode ∧
      (sidebandToggle cfg text s).vfoActive = s.vfoActive) ∧
    (cwToggle cfg s).cwMode = (!s.cwMode) ∧
    (cwToggle cfg s).isUSB
      = (if s.vfoActive = cfg.VFO_A then (cwToggle cfg s).isUsbVfoA
         else (cwToggle cfg s).isUsbVfoB) ∧
    ((cwToggle cfg s).isUsbVfoA = s.isUsbVfoA ∧ (cwToggle cfg s).isUsbVfoB = s.isUsbVfoB ∧
      (cwToggle cfg s).vfoAcwMode = s.vfoAcwMode ∧
      (cwToggle cfg s).vfoBcwMode = s.vfoBcwMode ∧
      (cwToggle cfg s).vfoA = s.vfoA ∧ (cwToggle cfg s).vfoB = s.vfoB ∧
      (cwToggle cfg s).vfoActive = s.vfoActive) := by
  unfold inSync at hs
  refine ⟨?_, ?_, ?_, ?_, rfl, ?_, ⟨rfl, rfl, rfl, rfl, rfl, rfl, rfl⟩⟩
  · unfold inSync sidebandToggle setFrequency
    by_cases hA : s.vfoActive = cfg.VFO_A <;> by_cases hT : text = "LSB" <;>
      simp_all
  · unfold sidebandToggle setFrequency
    by_cases hA : s.vfoActive = cfg.VFO_A <;> by_cases hT : text = "LSB" <;> simp [hA, hT]
  · unfold sidebandToggle setFrequency
    by_cases hA : s.vfoActive = cfg.VFO_A <;> by_cases hT : text = "LSB" <;> simp [hA, hT]
  · unfold sidebandToggle setFrequency
    by_cases hA : s.vfoActive = cfg.VFO_A <;> by_cases hT : text = "LSB" <;> simp [hA, hT]
  · show s.isUSB = (if s.vfoActive = cfg.VFO_A then s.isUsbVfoA else s.isUsbVfoB)
    by_cases hA : s.vfoActive = cfg.VFO_A
    · rw [if_pos hA] at hs ⊢; exact hs.1
    · rw [if_neg hA] at hs ⊢; exact hs.1

/-- Witness for C15 (amended): the sample state has VFO A active with working
flags equal to those stored for VFO A; after the "USB" command the working
`isUSB` and the stored `isUsbVfoA` are both true, the flags being equal again. -/
theorem modeCommands_slot_flags_witness :
    inSync sampleConfig sampleState ∧
    inSync sampleConfig (sidebandToggle sampleConfig "USB" sampleState) ∧
    (sidebandToggle sampleConfig "USB" sampleState).isUSB = true ∧
    (cwToggle sampleConfig sampleState).cwMode = true :=
  ⟨by decide,
   (modeCommands_slot_flags sampleConfig sampleState "USB" (by decide)).1,
   (modeCommands_slot_flags sampleConfig sampleState "USB" (by decide)).2.1,
   (modeCommands_slot_flags sampleConfig sampleState "USB" (by decide)).2.2.2.2.1⟩

end Ubitx
